import Mathlib

/-!
Verification development for the KLOTH Circularity 2025 Collection dashboard
(`Kloth_2025_Dashboard.py`).

The script is a linear pipeline: load two spreadsheet tables (an aggregated
per-site snapshot and a daily fact table), join the state/territory column
into the fact table, apply sidebar filter criteria, and compute grouped sums,
top-N rankings and scalar metrics.

Shallow embedding conventions:
* A dataframe is a `List` of typed row structures; pandas column operations
  become per-row functions, boolean-mask selections become `List.filter`.
* Real numbers (`float` cells) are modelled as `ℚ`; date-times produced by
  `pd.to_datetime(..., unit="D", origin="1899-12-30")` are modelled by their
  integer day offset from that origin (`Int`), with `none` for `NaT`.
* `pd.to_numeric(col, errors="coerce")` / `pd.to_datetime(..., errors="coerce")`
  yield `NaN`/`NaT` exactly when a cell lacks a numeric / serial-date
  interpretation; a raw cell is therefore modelled post-parse as an `Option`
  (`none` = the parse failed), and `.fillna(v)` becomes `Option.getD v`.
* The expected columns are present in the modelled tables, so the script's
  `if col in df.columns` guards are in the taken branch.
-/

/-- Aggregated snapshot path, `AGG_PATH` in the script. -/
def AGG_PATH : String := "KLOTH_Malaysia_Week33_Enriched.xlsx"

/-- Fact workbook path, `FACT_PATH` in the script. -/
def FACT_PATH : String := "2025 Week 33.xlsx"

/-- A raw row of the aggregated workbook as it stands after `pd.read_excel`:
numeric cells are recorded post-parse (`none` when `pd.to_numeric` with
`errors="coerce"` would give `NaN`), text cells already as the strings
`astype(str)` produces. -/
structure RawAggRow where
  siteContractId : String
  locationName : String
  siteAddress : String
  stateTerritory : String
  rawAcceptable : Option ℚ
  rawRejected : Option ℚ
  deriving Repr, DecidableEq

/-- A typed row of `df_agg`, the output of `load_aggregated`. -/
structure AggRow where
  siteContractId : String
  locationName : String
  siteAddress : String
  stateTerritory : String
  totalAcceptableKg : ℚ
  totalRejectedKg : ℚ
  deriving Repr, DecidableEq

/-- Row-wise body of `load_aggregated`:
`df[col] = pd.to_numeric(df[col], errors="coerce").fillna(0.0)` for the two
KG columns; the text columns are kept as strings. -/
def coerceAggRow (r : RawAggRow) : AggRow :=
  { siteContractId := r.siteContractId
    locationName := r.locationName
    siteAddress := r.siteAddress
    stateTerritory := r.stateTerritory
    totalAcceptableKg := r.rawAcceptable.getD 0
    totalRejectedKg := r.rawRejected.getD 0 }

/-- `load_aggregated`: coerce every row, dropping none. -/
def load_aggregated (rows : List RawAggRow) : List AggRow :=
  rows.map coerceAggRow

/-- Python `str.title()` restricted to the ASCII letters that occur in this
data: the first character of each alphabetic run is uppercased, the rest of
the run lowercased, non-alphabetic characters are kept and restart a run. -/
def titleCaseChars : Bool → List Char → List Char
  | _, [] => []
  | start, c :: cs =>
    if c.isAlpha then
      (if start then c.toUpper else c.toLower) :: titleCaseChars false cs
    else
      c :: titleCaseChars true cs

/-- `Series.str.title()` on one cell. -/
def titleCase (s : String) : String :=
  String.mk (titleCaseChars true s.toList)

/-- Case-folding used to state "names a weekday in some casing". -/
def lowerStr (s : String) : String :=
  String.mk (s.toList.map Char.toLower)

/-- A raw row of sheet "Fact" after `pd.read_excel`: serial-date cells
post-parse (`none` when `pd.to_datetime(..., errors="coerce")` would give
`NaT`), `WeightKG` post-parse (`none` for `NaN`), text cells as strings. -/
structure RawFactRow where
  name : String
  locationName : String
  site : String
  siteAddress : String
  monthText : String
  dayOfWeek : String
  rawDate : Option Int
  rawMonthStart : Option Int
  rawWeight : Option ℚ
  deriving Repr, DecidableEq

/-- A typed row of `df_fact` as produced by `load_fact` (before the
state/territory join). -/
structure FactRow where
  name : String
  locationName : String
  site : String
  siteAddress : String
  monthText : String
  dayOfWeek : String
  dateDt : Option Int
  monthStartDt : Option Int
  weightKg : ℚ
  deriving Repr, DecidableEq

/-- Row-wise body of `load_fact`: serial dates pass through as day offsets
(`Date_dt`, `MonthStart_dt`), `WeightKG` gets
`pd.to_numeric(..., errors="coerce").fillna(0.0)`, and `Day of Week` gets
`Series.str.title()`. -/
def loadFactRow (r : RawFactRow) : FactRow :=
  { name := r.name
    locationName := r.locationName
    site := r.site
    siteAddress := r.siteAddress
    monthText := r.monthText
    dayOfWeek := titleCase r.dayOfWeek
    dateDt := r.rawDate
    monthStartDt := r.rawMonthStart
    weightKg := r.rawWeight.getD 0 }

/-- `load_fact`: coerce every row, dropping none. -/
def load_fact (rows : List RawFactRow) : List FactRow :=
  rows.map loadFactRow

/-- Outcome of the startup file guard (lines 44-49): `st.error` followed by
`st.stop()` ends the run with a user-visible message carrying the path, and
nothing after the guard executes; otherwise the script proceeds. -/
inductive StartupOutcome where
  | missingFile (path : String)
  | proceed
  deriving Repr, DecidableEq

/-- The guard itself, abstracted over the `Path(...).exists()` oracle:
`if not Path(AGG_PATH).exists(): st.error(...); st.stop()` and the same for
`FACT_PATH`. -/
def startup_guard (ex : String → Bool) : StartupOutcome :=
  if !(ex AGG_PATH) then .missingFile AGG_PATH
  else if !(ex FACT_PATH) then .missingFile FACT_PATH
  else .proceed

/-! ### State/territory join (lines 55-57)

`mapper = df_agg[["Site Contract ID","State/Federal Territory"]]
           .drop_duplicates("Site Contract ID")`
`df_fact = df_fact.merge(mapper, left_on="Site",
                         right_on="Site Contract ID", how="left")`
`df_fact["State/Federal Territory"] =
    df_fact["State/Federal Territory"].fillna("Unknown")`
-/

/-- `drop_duplicates("Site Contract ID")` with pandas' default
`keep="first"`: keep a row exactly when its key has not been seen on an
earlier row. `seen` accumulates the keys of the rows already kept. -/
def dropDupByKey (seen : List String) : List (String × String) → List (String × String)
  | [] => []
  | p :: ps =>
    if seen.contains p.1 then dropDupByKey seen ps
    else p :: dropDupByKey (p.1 :: seen) ps

/-- The `mapper` dataframe: project `df_agg` to the
(Site Contract ID, State/Federal Territory) pairs and drop duplicate keys. -/
def mapper (agg : List AggRow) : List (String × String) :=
  dropDupByKey [] (agg.map fun a => (a.siteContractId, a.stateTerritory))

/-- A `df_fact` row after the merge: the fact columns plus the joined
`State/Federal Territory` column. -/
structure JFactRow where
  fact : FactRow
  stateTerritory : String
  deriving Repr, DecidableEq

/-- `merge(..., how="left")` on `Site` = `Site Contract ID`: each left row is
emitted once per matching right row, carrying that row's value; a left row
with no match is emitted once with a null (`none`) value. -/
def leftMerge (facts : List FactRow) (m : List (String × String)) :
    List (FactRow × Option String) :=
  facts.flatMap fun f =>
    let ms := m.filter fun p => p.1 == f.site
    if ms.isEmpty then [(f, none)] else ms.map fun p => (f, some p.2)

/-- The whole join: merge against `mapper agg`, then
`fillna("Unknown")` on the joined column. -/
def joinState (agg : List AggRow) (facts : List FactRow) : List JFactRow :=
  (leftMerge facts (mapper agg)).map fun fs =>
    { fact := fs.1, stateTerritory := fs.2.getD "Unknown" }

/-- Spec-side description of the derived column (§3 "Derived"): the
`State/Federal Territory` of the first aggregated row whose
`Site Contract ID` equals the fact row's `Site`, else `"Unknown"`. Written
from the spec's words, to be compared with `joinState`. -/
def firstMatchState (agg : List AggRow) (site : String) : String :=
  match agg.find? (fun a => a.siteContractId == site) with
  | some a => a.stateTerritory
  | none => "Unknown"

/-! ### Time-series filters (lines 93-100)

`ts = df_fact.copy()` followed by one boolean-mask selection per active
criterion; a multiselect is active when its selection list is non-empty, the
date slider is active when it produced a range (`ts_date_range` non-`None`).
-/

/-- The sidebar state feeding the time-series filter block. -/
structure TsCriteria where
  stateSel : List String
  weekSel : List String
  monthSel : List String
  dowSel : List String
  dateRange : Option (Int × Int)
  deriving Repr, DecidableEq

/-- The all-inactive sidebar state: nothing selected, no date range. -/
def TsCriteria.inactive : TsCriteria :=
  { stateSel := [], weekSel := [], monthSel := [], dowSel := [], dateRange := none }

/-- `(ts["Date_dt"] >= start) & (ts["Date_dt"] <= end)` on one row: a `NaT`
date compares false on both sides, so a null-date row is dropped. -/
def dateInRange (s e : Int) (d : Option Int) : Bool :=
  match d with
  | some x => decide (s ≤ x) && decide (x ≤ e)
  | none => false

/-- One `if <multiselect>: ts = ts[ts[col].isin(sel)]` line: a no-op when
nothing is selected, an `isin` mask otherwise. -/
def selStage {α : Type} (sel : List String) (f : α → String) (t : List α) : List α :=
  if sel.isEmpty then t else t.filter fun r => sel.contains (f r)

/-- The `if ts_date_range: ...` line: a no-op when the slider produced no
range, the two-sided date mask otherwise. -/
def dateStage (dr : Option (Int × Int)) (t : List JFactRow) : List JFactRow :=
  match dr with
  | none => t
  | some se => t.filter fun r => dateInRange se.1 se.2 r.fact.dateDt

/-- Lines 93-100, one `if`-guarded mask per criterion, applied in script
order: state, week (`Name`), month (`MonthText`), day of week, date range. -/
def applyTsFilters (c : TsCriteria) (rows : List JFactRow) : List JFactRow :=
  dateStage c.dateRange
    (selStage c.dowSel (fun r => r.fact.dayOfWeek)
      (selStage c.monthSel (fun r => r.fact.monthText)
        (selStage c.weekSel (fun r => r.fact.name)
          (selStage c.stateSel (fun r => r.stateTerritory) rows))))

/-- `total_w = float(ts["WeightKG"].sum())` (an empty frame sums to 0.0, so
the `if not ts.empty` guard does not change the value). -/
def total_w (rows : List JFactRow) : ℚ :=
  (rows.map fun r => r.fact.weightKg).sum

/-- `c` activates a subset of the criteria of `c'`: each criterion is either
inactive in `c` or identical in both. -/
def TsExtends (c c' : TsCriteria) : Prop :=
  (c.stateSel = [] ∨ c.stateSel = c'.stateSel) ∧
  (c.weekSel = [] ∨ c.weekSel = c'.weekSel) ∧
  (c.monthSel = [] ∨ c.monthSel = c'.monthSel) ∧
  (c.dowSel = [] ∨ c.dowSel = c'.dowSel) ∧
  (c.dateRange = none ∨ c.dateRange = c'.dateRange)

instance (c c' : TsCriteria) : Decidable (TsExtends c c') := by
  unfold TsExtends; infer_instance

/-! ### Aggregations

`bar_data` (lines 163-168) is
`ag.groupby("Location Name", as_index=False)["Total Acceptable (KG)"].sum()
   .sort_values("Total Acceptable (KG)", ascending=False).head(int(top_n))`,
and `dow` (line 221) and `state_pie_data` (lines 182-186) are the same
group-then-sum shape over other key/value columns, so the group-sum is
modelled once, generically in the key and value getters.

A `groupby(k)[v].sum()` produces one `(key, sum of v over the rows with that
key)` pair per distinct key. The order in which pandas enumerates the keys
(sorted ascending) differs from the first-occurrence order used here, and
`sort_values` uses an unstable quicksort, so the order of pairs whose sums
tie is not pinned by the source; no claim below depends on either order —
only on the multiset of pairs and on the result being sorted by descending
sum. -/

/-- Insert `x` into a list already sorted by descending second component. -/
def insertDesc (x : String × ℚ) : List (String × ℚ) → List (String × ℚ)
  | [] => [x]
  | y :: ys => if y.2 ≤ x.2 then x :: y :: ys else y :: insertDesc x ys

/-- `sort_values(value, ascending=False)` on a (key, sum) table. -/
def sortByValueDesc : List (String × ℚ) → List (String × ℚ)
  | [] => []
  | x :: xs => insertDesc x (sortByValueDesc xs)

/-- `groupby(key)[val].sum().sort_values(val, ascending=False)`: one pair per
distinct key, carrying the sum of `val` over the rows having that key,
sorted by descending sum. -/
def group_sum {α : Type} (key : α → String) (val : α → ℚ) (rows : List α) :
    List (String × ℚ) :=
  sortByValueDesc <| (rows.map key).dedup.map fun k =>
    (k, ((rows.filter fun r => key r == k).map val).sum)

/-- `.head(n)` after the descending sort: the Top-N table. -/
def top_n {α : Type} (key : α → String) (val : α → ℚ) (n : ℕ) (rows : List α) :
    List (String × ℚ) :=
  (group_sum key val rows).take n

/-- `bar_data` (lines 163-168): Top-N of acceptable KG by location name over
the filtered aggregated table. -/
def bar_data (n : ℕ) (ag : List AggRow) : List (String × ℚ) :=
  top_n (fun r => r.locationName) (fun r => r.totalAcceptableKg) n ag

/-- Sorted by descending second component (the aggregate value). -/
def SortedDesc (l : List (String × ℚ)) : Prop :=
  l.Pairwise fun a b => b.2 ≤ a.2

/-! ### Sample data for witnesses (the spec's §8 scenario rows) -/

def sampleAgg : List AggRow :=
  [ { siteContractId := "S1", locationName := "L1", siteAddress := "A1",
      stateTerritory := "Selangor", totalAcceptableKg := 100, totalRejectedKg := 0 },
    { siteContractId := "S2", locationName := "L2", siteAddress := "A2",
      stateTerritory := "Selangor", totalAcceptableKg := 50, totalRejectedKg := 0 },
    { siteContractId := "S3", locationName := "L3", siteAddress := "A3",
      stateTerritory := "Johor", totalAcceptableKg := 30, totalRejectedKg := 0 } ]

/-- A raw fact row whose numeric and date cells all failed to parse. -/
def badRawFact : RawFactRow :=
  { name := "W33", locationName := "Loc", site := "S9", siteAddress := "Addr",
    monthText := "August", dayOfWeek := "week end",
    rawDate := none, rawMonthStart := none, rawWeight := none }

/-- A small joined fact table for the time-series witnesses. -/
def sampleTs : List JFactRow :=
  [ { fact := { name := "W33", locationName := "L1", site := "S1", siteAddress := "A1",
                monthText := "August", dayOfWeek := "Monday",
                dateDt := some 5, monthStartDt := some 0, weightKg := 12 },
      stateTerritory := "Selangor" },
    { fact := { name := "W33", locationName := "L2", site := "S2", siteAddress := "A2",
                monthText := "August", dayOfWeek := "Tuesday",
                dateDt := none, monthStartDt := some 0, weightKg := 7 },
      stateTerritory := "Johor" } ]

/-- The criterion set used by the C3 witness: one state selected and a date
range active. -/
def witnessCrit : TsCriteria :=
  { stateSel := ["Selangor"], weekSel := [], monthSel := [], dowSel := [],
    dateRange := some (0, 10) }

/-- `dow_order` (line 76): the canonical weekday names. -/
def dow_order : List String :=
  ["Monday", "Tuesday", "Wednesday", "Thursday", "Friday", "Saturday", "Sunday"]

/-- A raw fact row whose day-of-week cell is an all-caps weekday name. -/
def rawMondayFact : RawFactRow :=
  { name := "W33", locationName := "Loc", site := "S1", siteAddress := "Addr",
    monthText := "August", dayOfWeek := "MONDAY",
    rawDate := some 3, rawMonthStart := some 0, rawWeight := some 5 }

/-- A small loaded fact table (pre-join) for the join witnesses: one row
matching an aggregated site and one row with an unknown site. -/
def sampleFacts : List FactRow :=
  [ { name := "W33", locationName := "L1", site := "S1", siteAddress := "A1",
      monthText := "August", dayOfWeek := "Monday",
      dateDt := some 5, monthStartDt := some 0, weightKg := 12 },
    { name := "W33", locationName := "LX", site := "S9", siteAddress := "AX",
      monthText := "August", dayOfWeek := "Tuesday",
      dateDt := none, monthStartDt := some 0, weightKg := 7 } ]

/-! ### Aggregated-table filters (lines 142-151)

`ag = df_agg.copy()` followed by one `if`-guarded mask per optional criterion
(state and site multiselects, two text queries) and then, unconditionally,
`ag = ag[ag["Total Acceptable (KG)"].between(ag_acc_range[0], ag_acc_range[1])]`
with the slider's current range (line 151) — the range mask runs even when
every other criterion is unselected. -/

/-- Python `str.strip()`: drop whitespace from both ends. -/
def pyStrip (s : String) : String :=
  String.mk (((s.toList.dropWhile Char.isWhitespace).reverse.dropWhile
    Char.isWhitespace).reverse)

/-- The sidebar state feeding the aggregated filter block: the two
multiselects, the two query boxes, and the acceptable-KG slider range. -/
structure AgCriteria where
  stateSel : List String
  siteSel : List String
  nameQ : String
  addrQ : String
  accRange : ℚ × ℚ
  deriving Repr, DecidableEq

/-- One `if <query>.strip(): q = <query>.lower().strip();
ag = ag[ag[col].str.lower().str.contains(q)]` pair of lines (145-150).
`Series.str.contains` interprets `q` as a regular expression (its
`regex=True` default); the row test enters the model as an opaque Boolean
`matcher`, applied to the lowered-and-stripped query and the lowered cell,
because every property proved about this pipeline holds uniformly in the
matcher. -/
def queryStage {α : Type} (matcher : String → String → Bool) (q : String)
    (cell : α → String) (t : List α) : List α :=
  if pyStrip q = "" then t
  else t.filter fun r => matcher (pyStrip (lowerStr q)) (lowerStr (cell r))

/-- Line 151: `.between(lo, hi)`, inclusive on both ends, always applied. -/
def betweenStage (lo hi : ℚ) (t : List AggRow) : List AggRow :=
  t.filter fun r =>
    decide (lo ≤ r.totalAcceptableKg) && decide (r.totalAcceptableKg ≤ hi)

/-- Lines 142-151 in script order: state `isin`, site `isin`, location-name
query, site-address query, then the always-applied acceptable-KG range. -/
def applyAgFilters (matcher : String → String → Bool) (c : AgCriteria)
    (rows : List AggRow) : List AggRow :=
  betweenStage c.accRange.1 c.accRange.2
    (queryStage matcher c.addrQ (fun r => r.siteAddress)
      (queryStage matcher c.nameQ (fun r => r.locationName)
        (selStage c.siteSel (fun r => r.siteContractId)
          (selStage c.stateSel (fun r => r.stateTerritory) rows))))

/-- `acc_max = float(df_agg["Total Acceptable (KG)"].max())` (line 133); the
model returns 0 for the empty table, where pandas would produce `NaN` (no
claim exercises that case). -/
def accMax (rows : List AggRow) : ℚ :=
  ((rows.map fun r => r.totalAcceptableKg).max?).getD 0

/-- The all-unselected sidebar state for the aggregated block: empty
multiselects, blank query boxes, and the slider untouched at its default
`(0.0, max(acc_max, 1.0))` range (lines 134-138). -/
def defaultAgCriteria (rows : List AggRow) : AgCriteria :=
  { stateSel := [], siteSel := [], nameQ := "", addrQ := "",
    accRange := (0, max (accMax rows) 1) }

/-- `c` activates a subset of the criteria of `c'`: each optional criterion
is inactive in `c` or identical in both, and the always-active range slider
sits at the same position. -/
def AgExtends (c c' : AgCriteria) : Prop :=
  (c.stateSel = [] ∨ c.stateSel = c'.stateSel) ∧
  (c.siteSel = [] ∨ c.siteSel = c'.siteSel) ∧
  (pyStrip c.nameQ = "" ∨ c.nameQ = c'.nameQ) ∧
  (pyStrip c.addrQ = "" ∨ c.addrQ = c'.addrQ) ∧
  c.accRange = c'.accRange

instance (c c' : AgCriteria) : Decidable (AgExtends c c') := by
  unfold AgExtends; infer_instance

/-- An aggregated row carrying a negative acceptable weight: the loaders do
not clamp negatives, so a negative spreadsheet cell survives into `df_agg`,
below the slider's fixed `min_value=0.0`. -/
def negAggRow : AggRow :=
  { siteContractId := "S4", locationName := "L4", siteAddress := "A4",
    stateTerritory := "Perlis", totalAcceptableKg := -1, totalRejectedKg := 0 }

/-- The aggregated criterion set used by the C3 witness: one state selected,
everything else at the all-unselected defaults for `sampleAgg`. -/
def agWitnessCrit : AgCriteria :=
  { stateSel := ["Selangor"], siteSel := [], nameQ := "", addrQ := "",
    accRange := (0, max (accMax sampleAgg) 1) }

/-! ### Lemmas about the descending insertion sort -/

theorem length_insertDesc (x : String × ℚ) (l : List (String × ℚ)) :
    (insertDesc x l).length = l.length + 1 := by
  induction l with
  | nil => rfl
  | cons y ys ih =>
    by_cases h : y.2 ≤ x.2 <;> simp [insertDesc, h, ih]

theorem length_sortByValueDesc (l : List (String × ℚ)) :
    (sortByValueDesc l).length = l.length := by
  induction l with
  | nil => rfl
  | cons x xs ih => simp [sortByValueDesc, length_insertDesc, ih]

theorem mem_insertDesc {z x : String × ℚ} {l : List (String × ℚ)} :
    z ∈ insertDesc x l → z = x ∨ z ∈ l := by
  induction l with
  | nil => simp [insertDesc]
  | cons y ys ih =>
    by_cases h : y.2 ≤ x.2
    · simp only [insertDesc, if_pos h]
      intro hz
      rcases List.mem_cons.mp hz with rfl | hz
      · exact Or.inl rfl
      · exact Or.inr hz
    · simp only [insertDesc, if_neg h]
      intro hz
      rcases List.mem_cons.mp hz with rfl | hz
      · exact Or.inr (List.mem_cons_self _ _)
      · rcases ih hz with h1 | h1
        · exact Or.inl h1
        · exact Or.inr (List.mem_cons_of_mem _ h1)

theorem sortedDesc_insertDesc {x : String × ℚ} {l : List (String × ℚ)}
    (hl : SortedDesc l) : SortedDesc (insertDesc x l) := by
  unfold SortedDesc at hl ⊢
  induction l with
  | nil => simp [insertDesc]
  | cons y ys ih =>
    rcases List.pairwise_cons.mp hl with ⟨hy, hys⟩
    by_cases h : y.2 ≤ x.2
    · simp only [insertDesc, if_pos h]
      refine List.pairwise_cons.mpr ⟨?_, hl⟩
      intro z hz
      rcases List.mem_cons.mp hz with rfl | hz
      · exact h
      · exact le_trans (hy z hz) h
    · simp only [insertDesc, if_neg h]
      refine List.pairwise_cons.mpr ⟨?_, ih hys⟩
      intro z hz
      rcases mem_insertDesc hz with rfl | hz
      · exact le_of_lt (lt_of_not_le h)
      · exact hy z hz

theorem sortedDesc_sortByValueDesc (l : List (String × ℚ)) :
    SortedDesc (sortByValueDesc l) := by
  induction l with
  | nil => simp [sortByValueDesc, SortedDesc]
  | cons x xs ih => exact sortedDesc_insertDesc ih

theorem sumSnd_insertDesc (x : String × ℚ) (l : List (String × ℚ)) :
    ((insertDesc x l).map Prod.snd).sum = x.2 + (l.map Prod.snd).sum := by
  induction l with
  | nil => simp [insertDesc]
  | cons y ys ih =>
    by_cases h : y.2 ≤ x.2
    · simp [insertDesc, h]
    · simp [insertDesc, h, ih]; ring

/-- Sorting does not change the total of the aggregate column. -/
theorem sumSnd_sortByValueDesc (l : List (String × ℚ)) :
    ((sortByValueDesc l).map Prod.snd).sum = (l.map Prod.snd).sum := by
  induction l with
  | nil => rfl
  | cons x xs ih => simp [sortByValueDesc, sumSnd_insertDesc, ih]

/-! ### Lemmas about group-sum -/

/-- Splitting a sum over a boolean predicate. -/
theorem sum_map_filter_split {α : Type} (p : α → Bool) (val : α → ℚ) (l : List α) :
    ((l.filter p).map val).sum + ((l.filter fun r => !(p r)).map val).sum
      = (l.map val).sum := by
  induction l with
  | nil => simp
  | cons a l ih =>
    by_cases h : p a <;> simp [List.filter_cons, h] <;> linarith [ih]

/-- Summing the per-key filtered sums over a duplicate-free list of keys that
covers every row gives the whole-column sum. -/
theorem sum_over_keys {α : Type} (key : α → String) (val : α → ℚ) :
    ∀ ks : List String, ks.Nodup → ∀ rows : List α, (∀ r ∈ rows, key r ∈ ks) →
      (ks.map fun k => ((rows.filter fun r => key r == k).map val).sum).sum
        = (rows.map val).sum := by
  intro ks
  induction ks with
  | nil =>
    intro _ rows hcov
    have : rows = [] := List.eq_nil_iff_forall_not_mem.mpr fun r hr => by
      simpa using hcov r hr
    simp [this]
  | cons k ks ih =>
    intro hnd rows hcov
    rcases List.nodup_cons.mp hnd with ⟨hk, hnd'⟩
    set rows' := rows.filter fun r => !(key r == k) with hrows'
    have hcov' : ∀ r ∈ rows', key r ∈ ks := by
      intro r hr
      rcases List.mem_filter.mp hr with ⟨hrm, hne⟩
      have := hcov r hrm
      rcases List.mem_cons.mp this with h1 | h1
      · exfalso; simp [h1] at hne
      · exact h1
    have hswap : ∀ k' ∈ ks,
        (rows.filter fun r => key r == k') = rows'.filter fun r => key r == k' := by
      intro k' hk'
      rw [hrows', List.filter_filter]
      apply List.filter_congr
      intro r _
      by_cases h : key r = k'
      · have h2 : ¬ k' = k := fun hc => hk (hc ▸ hk')
        have h3 : ¬ key r = k := fun hc => h2 (h.symm.trans hc)
        simp [h, h2, h3]
      · simp [h]
    have hmap : (ks.map fun k' => ((rows.filter fun r => key r == k').map val).sum)
        = ks.map fun k' => ((rows'.filter fun r => key r == k').map val).sum := by
      apply List.map_congr_left
      intro k' hk'
      rw [hswap k' hk']
    calc ((k :: ks).map fun k' => ((rows.filter fun r => key r == k').map val).sum).sum
        = ((rows.filter fun r => key r == k).map val).sum
            + (ks.map fun k' => ((rows.filter fun r => key r == k').map val).sum).sum := by
          simp
      _ = ((rows.filter fun r => key r == k).map val).sum + (rows'.map val).sum := by
          rw [hmap, ih hnd' rows' hcov']
      _ = (rows.map val).sum := by
          rw [hrows']; exact sum_map_filter_split _ val rows

/-! ### Claims -/

/-- C1: for every filtered table, grouping field, value field and
caller-supplied `n ≥ 1`, `bar_data` is the Top-N instance used by the bar
chart, the Top-N table is the first-`n`-entries prefix of the group-sum
table, the group-sum table is sorted descending by aggregate value, and when
`n` is at least the number of distinct groups the Top-N table is the whole
group-sum table. -/
theorem topN_prefix_and_full {α : Type} (key : α → String) (val : α → ℚ)
    (n : ℕ) (rows : List α) (ag : List AggRow) (_hn : 1 ≤ n) :
    bar_data n ag
        = (group_sum (fun r => r.locationName) (fun r => r.totalAcceptableKg) ag).take n ∧
    top_n key val n rows = (group_sum key val rows).take n ∧
    SortedDesc (group_sum key val rows) ∧
    ((rows.map key).dedup.length ≤ n → top_n key val n rows = group_sum key val rows) := by
  refine ⟨rfl, rfl, sortedDesc_sortByValueDesc _, fun h => ?_⟩
  have hlen : (group_sum key val rows).length ≤ n := by
    unfold group_sum
    rw [length_sortByValueDesc, List.length_map]
    exact h
  exact List.take_of_length_le hlen

/-- Witness for C1 on the spec's §8 scenario: grouping `sampleAgg` by state,
Top-2 covers both distinct groups, so it equals the full group-sum. -/
theorem topN_prefix_and_full_witness :
    (1 ≤ 2 ∧
      ((sampleAgg.map fun r => r.stateTerritory).dedup.length ≤ 2)) ∧
    top_n (fun r : AggRow => r.stateTerritory) (fun r => r.totalAcceptableKg) 2 sampleAgg
      = group_sum (fun r : AggRow => r.stateTerritory) (fun r => r.totalAcceptableKg) sampleAgg :=
  ⟨⟨by decide, by decide⟩,
    (topN_prefix_and_full (fun r : AggRow => r.stateTerritory)
      (fun r => r.totalAcceptableKg) 2 sampleAgg [] (by decide)).2.2.2 (by decide)⟩

/-- C2: for every table, grouping field and numeric value field, the
per-group aggregates of `group_sum` add up to the whole value column: no row
is dropped and none is counted twice by grouping. -/
theorem group_sum_total_eq_column_sum {α : Type} (key : α → String) (val : α → ℚ)
    (rows : List α) :
    ((group_sum key val rows).map Prod.snd).sum = (rows.map val).sum := by
  unfold group_sum
  rw [sumSnd_sortByValueDesc, List.map_map]
  have hcov : ∀ r ∈ rows, key r ∈ (rows.map key).dedup := fun r hr =>
    List.mem_dedup.mpr (List.mem_map_of_mem key hr)
  have := sum_over_keys key val (rows.map key).dedup (List.nodup_dedup _) rows hcov
  simpa [Function.comp] using this

/-- C4: loading coerces an unparseable numeric cell
(`pd.to_numeric(..., errors="coerce").fillna(0.0)`) to `0.0` in each of the
three numeric columns, and neither loader fails or drops a row: both are
total and length-preserving. -/
theorem numeric_coercion_total (raws : List RawAggRow) (fraws : List RawFactRow) :
    (load_aggregated raws).length = raws.length ∧
    (load_fact fraws).length = fraws.length ∧
    (∀ r : RawAggRow, r.rawAcceptable = none → (coerceAggRow r).totalAcceptableKg = 0) ∧
    (∀ r : RawAggRow, r.rawRejected = none → (coerceAggRow r).totalRejectedKg = 0) ∧
    (∀ r : RawFactRow, r.rawWeight = none → (loadFactRow r).weightKg = 0) := by
  refine ⟨by simp [load_aggregated], by simp [load_fact], ?_, ?_, ?_⟩ <;>
    intro r h <;> simp [coerceAggRow, loadFactRow, h]

/-- Witness for C4: a malformed-weight row loads with weight `0.0` and the
one-row table keeps its one row. -/
theorem numeric_coercion_total_witness :
    badRawFact.rawWeight = none ∧
    (load_fact [badRawFact]).length = [badRawFact].length ∧
    (loadFactRow badRawFact).weightKg = 0 :=
  ⟨rfl, (numeric_coercion_total [] [badRawFact]).2.1,
    (numeric_coercion_total [] [badRawFact]).2.2.2.2 badRawFact rfl⟩

/-- C5: the startup guard fails with the missing path when a configured
input file is absent — first `AGG_PATH`, then `FACT_PATH` — and the run
stops there (`st.stop()`), with no retry; when both files exist the error
branch is not taken and the script proceeds. -/
theorem startup_guard_missing_file (ex : String → Bool) :
    (ex AGG_PATH = false → startup_guard ex = .missingFile AGG_PATH) ∧
    (ex AGG_PATH = true → ex FACT_PATH = false →
      startup_guard ex = .missingFile FACT_PATH) ∧
    (ex AGG_PATH = true → ex FACT_PATH = true → startup_guard ex = .proceed) := by
  unfold startup_guard
  refine ⟨fun h1 => by simp [h1], fun h1 h2 => by simp [h1, h2],
    fun h1 h2 => by simp [h1, h2]⟩

/-- One multiselect stage of the filter block: with the smaller criterion
set's selection either inactive or identical, the more-filtered table stays a
sublist of the less-filtered one. -/
theorem stage_sublist {α : Type} {t t' : List α} (h : List.Sublist t' t)
    {sel sel' : List String} (f : α → String) (hext : sel = [] ∨ sel = sel') :
    List.Sublist (selStage sel' f t') (selStage sel f t) := by
  rcases hext with rfl | rfl
  · have he : selStage ([] : List String) f t = t := rfl
    rw [he]
    by_cases hb : sel'.isEmpty
    · rw [selStage, if_pos hb]; exact h
    · rw [selStage, if_neg hb]; exact (List.filter_sublist _).trans h
  · by_cases hb : sel.isEmpty
    · rw [selStage, selStage, if_pos hb, if_pos hb]; exact h
    · rw [selStage, selStage, if_neg hb, if_neg hb]; exact h.filter _

/-- The date-range stage, same shape as `stage_sublist`. -/
theorem date_stage_sublist {t t' : List JFactRow} (h : List.Sublist t' t)
    {dr dr' : Option (Int × Int)} (hext : dr = none ∨ dr = dr') :
    List.Sublist (dateStage dr' t') (dateStage dr t) := by
  rcases hext with rfl | rfl
  · cases dr' with
    | none => exact h
    | some se => exact (List.filter_sublist _).trans h
  · cases dr with
    | none => exact h
    | some se => exact h.filter _

/-- Activating more criteria only shrinks the filtered view: the result for
the larger criterion set is a sublist of the result for the smaller one. -/
theorem applyTsFilters_sublist (c c' : TsCriteria) (rows : List JFactRow)
    (hext : TsExtends c c') :
    List.Sublist (applyTsFilters c' rows) (applyTsFilters c rows) := by
  obtain ⟨h1, h2, h3, h4, h5⟩ := hext
  unfold applyTsFilters
  exact date_stage_sublist
    (stage_sublist
      (stage_sublist
        (stage_sublist
          (stage_sublist (List.Sublist.refl rows) (fun r => r.stateTerritory) h1)
          (fun r => r.fact.name) h2)
        (fun r => r.fact.monthText) h3)
      (fun r => r.fact.dayOfWeek) h4)
    h5

/-- One query stage: with the smaller criterion set's query either blank
after stripping or identical, the more-filtered table stays a sublist. -/
theorem query_stage_sublist {α : Type} {t t' : List α} (h : List.Sublist t' t)
    (matcher : String → String → Bool) {q q' : String} (cell : α → String)
    (hext : pyStrip q = "" ∨ q = q') :
    List.Sublist (queryStage matcher q' cell t') (queryStage matcher q cell t) := by
  rcases hext with he | rfl
  · have hq : queryStage matcher q cell t = t := by
      rw [queryStage, if_pos he]
    rw [hq]
    by_cases hb : pyStrip q' = ""
    · have hq' : queryStage matcher q' cell t' = t' := by
        rw [queryStage, if_pos hb]
      rw [hq']; exact h
    · have hq' : queryStage matcher q' cell t'
          = t'.filter fun r => matcher (pyStrip (lowerStr q')) (lowerStr (cell r)) := by
        rw [queryStage, if_neg hb]
      rw [hq']; exact (List.filter_sublist _).trans h
  · by_cases hb : pyStrip q = ""
    · have hq : ∀ u : List α, queryStage matcher q cell u = u := fun u => by
        rw [queryStage, if_pos hb]
      rw [hq, hq]; exact h
    · have hq : ∀ u : List α, queryStage matcher q cell u
          = u.filter fun r => matcher (pyStrip (lowerStr q)) (lowerStr (cell r)) := fun u => by
        rw [queryStage, if_neg hb]
      rw [hq, hq]; exact h.filter _

/-- The always-applied range stage preserves sublists at a fixed range. -/
theorem between_stage_sublist {t t' : List AggRow} (h : List.Sublist t' t)
    (lo hi : ℚ) : List.Sublist (betweenStage lo hi t') (betweenStage lo hi t) :=
  h.filter _

/-- Aggregated pipeline: activating more criteria only shrinks the filtered
view (the range slider fixed). -/
theorem applyAgFilters_sublist (matcher : String → String → Bool)
    (c c' : AgCriteria) (rows : List AggRow) (hext : AgExtends c c') :
    List.Sublist (applyAgFilters matcher c' rows) (applyAgFilters matcher c rows) := by
  obtain ⟨h1, h2, h3, h4, h5⟩ := hext
  unfold applyAgFilters
  rw [h5]
  exact between_stage_sublist
    (query_stage_sublist
      (query_stage_sublist
        (stage_sublist
          (stage_sublist (List.Sublist.refl rows) (fun r => r.stateTerritory) h1)
          (fun r => r.siteContractId) h2)
        matcher (fun r => r.locationName) h3)
      matcher (fun r => r.siteAddress) h4)
    c'.accRange.1 c'.accRange.2

theorem le_foldl_max (bs : List ℚ) :
    ∀ a : ℚ, a ≤ bs.foldl max a ∧ ∀ x ∈ bs, x ≤ bs.foldl max a := by
  induction bs with
  | nil => intro a; exact ⟨le_refl _, by simp⟩
  | cons b bs ih =>
    intro a
    simp only [List.foldl_cons]
    refine ⟨le_trans (le_max_left a b) (ih (max a b)).1, ?_⟩
    intro x hx
    rcases List.mem_cons.mp hx with rfl | hx
    · exact le_trans (le_max_right a x) (ih (max a x)).1
    · exact (ih (max a b)).2 x hx

/-- Every acceptable weight in the table is at most the column maximum the
slider default is built from. -/
theorem le_accMax {rows : List AggRow} {r : AggRow} (hr : r ∈ rows) :
    r.totalAcceptableKg ≤ accMax rows := by
  unfold accMax
  cases rows with
  | nil => cases hr
  | cons a as =>
    have hm : ((a :: as).map fun q => q.totalAcceptableKg).max?
        = some ((as.map fun q => q.totalAcceptableKg).foldl max a.totalAcceptableKg) := rfl
    rw [hm, Option.getD_some]
    rcases List.mem_cons.mp hr with rfl | hr
    · exact (le_foldl_max _ _).1
    · exact (le_foldl_max _ _).2 _ (List.mem_map.mpr ⟨r, hr, rfl⟩)

/-- At the all-unselected defaults, the aggregated pipeline is the identity
on any table whose acceptable weights are non-negative (§3's data-model
invariant): the default range `[0, max(acc_max, 1)]` then passes every
row. -/
theorem applyAgFilters_default (matcher : String → String → Bool)
    (rows : List AggRow) (hnn : ∀ r ∈ rows, 0 ≤ r.totalAcceptableKg) :
    applyAgFilters matcher (defaultAgCriteria rows) rows = rows := by
  have hred : applyAgFilters matcher (defaultAgCriteria rows) rows
      = betweenStage 0 (max (accMax rows) 1) rows := rfl
  rw [hred, betweenStage, List.filter_eq_self]
  intro r hr
  simp only [Bool.and_eq_true, decide_eq_true_iff]
  exact ⟨hnn r hr, le_trans (le_accMax hr) (le_max_left _ _)⟩

/-- C3 counterexample: with every criterion unselected and the slider
untouched at its default range, the always-applied `between` mask of
line 151 still drops a row whose `Total Acceptable (KG)` is negative, so
"empty/unselected criteria leave the result unchanged" fails on the
aggregated pipeline as originally stated. -/
theorem filter_default_counterexample :
    applyAgFilters (fun _ _ => true) (defaultAgCriteria [negAggRow]) [negAggRow] = [] ∧
    ([negAggRow] : List AggRow) ≠ [] ∧
    (applyAgFilters (fun _ _ => true) (defaultAgCriteria [negAggRow]) [negAggRow]).length
      < [negAggRow].length :=
  ⟨by decide, by decide, by decide⟩

/-- C3 (amended): on both cited pipelines, activating an additional
criterion never increases the number of matching rows (filter-criteria sets
`c ⊆ c'` give a row count under `c'` at most that under `c`); the
all-inactive time-series criteria return the table unchanged; and the
all-unselected aggregated criteria (slider at its default range) return the
table unchanged whenever the table satisfies the data model's non-negative
acceptable-weight invariant — a negative value is dropped by the always-on
range mask even with everything unselected. -/
theorem filter_count_monotone (matcher : String → String → Bool)
    (tsRows : List JFactRow) (tc tc' : TsCriteria) (htc : TsExtends tc tc')
    (agRows : List AggRow) (ac ac' : AgCriteria) (hac : AgExtends ac ac')
    (hnn : ∀ r ∈ agRows, 0 ≤ r.totalAcceptableKg) :
    (applyTsFilters tc' tsRows).length ≤ (applyTsFilters tc tsRows).length ∧
    applyTsFilters TsCriteria.inactive tsRows = tsRows ∧
    (applyAgFilters matcher ac' agRows).length ≤ (applyAgFilters matcher ac agRows).length ∧
    applyAgFilters matcher (defaultAgCriteria agRows) agRows = agRows :=
  ⟨(applyTsFilters_sublist tc tc' tsRows htc).length_le, rfl,
    (applyAgFilters_sublist matcher ac ac' agRows hac).length_le,
    applyAgFilters_default matcher agRows hnn⟩

/-- Witness for C3: on `sampleTs` and `sampleAgg` (all weights non-negative),
the inactive/default criterion sets are subsets of `witnessCrit` and
`agWitnessCrit`, filtering does not increase either row count, and both
inactive/default criterion sets leave their tables unchanged. -/
theorem filter_count_monotone_witness :
    (TsExtends TsCriteria.inactive witnessCrit ∧
      AgExtends (defaultAgCriteria sampleAgg) agWitnessCrit ∧
      (∀ r ∈ sampleAgg, 0 ≤ r.totalAcceptableKg)) ∧
    ((applyTsFilters witnessCrit sampleTs).length ≤
        (applyTsFilters TsCriteria.inactive sampleTs).length ∧
      applyTsFilters TsCriteria.inactive sampleTs = sampleTs ∧
      (applyAgFilters (fun _ _ => true) agWitnessCrit sampleAgg).length ≤
        (applyAgFilters (fun _ _ => true) (defaultAgCriteria sampleAgg) sampleAgg).length ∧
      applyAgFilters (fun _ _ => true) (defaultAgCriteria sampleAgg) sampleAgg = sampleAgg) :=
  ⟨⟨by decide, by decide, by decide⟩,
    filter_count_monotone (fun _ _ => true) sampleTs TsCriteria.inactive witnessCrit
      (by decide) sampleAgg (defaultAgCriteria sampleAgg) agWitnessCrit (by decide) (by decide)⟩

/-- Witness for C5: with no file present the guard reports the aggregated
path; with both present it proceeds. -/
theorem startup_guard_missing_file_witness :
    ((fun _ : String => false) AGG_PATH = false ∧
      startup_guard (fun _ => false) = .missingFile AGG_PATH) ∧
    ((fun _ : String => true) AGG_PATH = true ∧ (fun _ : String => true) FACT_PATH = true ∧
      startup_guard (fun _ => true) = .proceed) :=
  ⟨⟨rfl, (startup_guard_missing_file (fun _ => false)).1 rfl⟩,
    ⟨rfl, rfl, (startup_guard_missing_file (fun _ => true)).2.2 rfl rfl⟩⟩

/-! ### Character-level lemmas for `str.title()`

`Char.toLower`/`Char.toUpper` only move the basic latin letters, so two
characters with the same lower-casing have the same alphabetic status and the
same upper-casing; title-casing is therefore invariant under re-casing the
input, which is what lets a weekday name in any casing normalize to the
canonical form. -/

theorem charToNatOfNat (n : Nat) (h : n < 55296) : (Char.ofNat n).toNat = n := by
  have hv : n.isValidChar := Or.inl h
  rw [Char.ofNat, dif_pos hv]
  simp [Char.ofNatAux, Char.toNat, UInt32.toNat, BitVec.toNat_ofNatLt]

theorem char_toNat_inj {c c' : Char} (h : c.toNat = c'.toNat) : c = c' :=
  Char.eq_of_val_eq (UInt32.ext h)

theorem toLower_of_upperRange {c : Char} (h : 65 ≤ c.toNat ∧ c.toNat ≤ 90) :
    c.toLower = Char.ofNat (c.toNat + 32) := by
  rw [Char.toLower, if_pos ⟨h.1, h.2⟩]

theorem toLower_of_not_upperRange {c : Char} (h : ¬(65 ≤ c.toNat ∧ c.toNat ≤ 90)) :
    c.toLower = c := by
  rw [Char.toLower, if_neg fun hc => h ⟨hc.1, hc.2⟩]

theorem toUpper_of_lowerRange {c : Char} (h : 97 ≤ c.toNat ∧ c.toNat ≤ 122) :
    c.toUpper = Char.ofNat (c.toNat - 32) := by
  rw [Char.toUpper, if_pos ⟨h.1, h.2⟩]

theorem toUpper_of_not_lowerRange {c : Char} (h : ¬(97 ≤ c.toNat ∧ c.toNat ≤ 122)) :
    c.toUpper = c := by
  rw [Char.toUpper, if_neg fun hc => h ⟨hc.1, hc.2⟩]

theorem isAlpha_iff (c : Char) :
    c.isAlpha = true ↔ (65 ≤ c.toNat ∧ c.toNat ≤ 90) ∨ (97 ≤ c.toNat ∧ c.toNat ≤ 122) := by
  simp [Char.isAlpha, Char.isUpper, Char.isLower, Bool.or_eq_true, Bool.and_eq_true,
    decide_eq_true_iff]
  rfl

theorem toLower_mixed {c c' : Char} (hc : 65 ≤ c.toNat ∧ c.toNat ≤ 90)
    (hc' : ¬(65 ≤ c'.toNat ∧ c'.toNat ≤ 90)) (h : c.toLower = c'.toLower) :
    c.isAlpha = c'.isAlpha ∧ c.toUpper = c'.toUpper := by
  rw [toLower_of_upperRange hc, toLower_of_not_upperRange hc'] at h
  have hn : c'.toNat = c.toNat + 32 := by
    rw [← h, charToNatOfNat _ (by omega)]
  constructor
  · rw [show c.isAlpha = true from (isAlpha_iff c).mpr (Or.inl hc),
      show c'.isAlpha = true from (isAlpha_iff c').mpr (Or.inr (by omega))]
  · rw [toUpper_of_not_lowerRange (by omega),
      toUpper_of_lowerRange (show 97 ≤ c'.toNat ∧ c'.toNat ≤ 122 by omega), hn]
    have h32 : c.toNat + 32 - 32 = c.toNat := by omega
    rw [h32, Char.ofNat_toNat]

theorem toLower_congr_alpha_upper {c c' : Char} (h : c.toLower = c'.toLower) :
    c.isAlpha = c'.isAlpha ∧ c.toUpper = c'.toUpper := by
  by_cases hc : 65 ≤ c.toNat ∧ c.toNat ≤ 90 <;>
    by_cases hc' : 65 ≤ c'.toNat ∧ c'.toNat ≤ 90
  · rw [toLower_of_upperRange hc, toLower_of_upperRange hc'] at h
    have h2 : c.toNat + 32 = c'.toNat + 32 := by
      have h3 := congrArg Char.toNat h
      rwa [charToNatOfNat _ (by omega), charToNatOfNat _ (by omega)] at h3
    have hcc : c = c' := char_toNat_inj (by omega)
    subst hcc
    exact ⟨rfl, rfl⟩
  · exact toLower_mixed hc hc' h
  · obtain ⟨h1, h2⟩ := toLower_mixed hc' hc h.symm
    exact ⟨h1.symm, h2.symm⟩
  · rw [toLower_of_not_upperRange hc, toLower_of_not_upperRange hc'] at h
    subst h
    exact ⟨rfl, rfl⟩

/-- Title-casing only looks at each character through `isAlpha`, `toUpper`
and `toLower`, so it is determined by the lower-cased character list. -/
theorem titleCaseChars_congr : ∀ (l l' : List Char) (b : Bool),
    l.map Char.toLower = l'.map Char.toLower →
    titleCaseChars b l = titleCaseChars b l' := by
  intro l
  induction l with
  | nil =>
    intro l' b h
    cases l' with
    | nil => rfl
    | cons c' cs' => simp at h
  | cons c cs ih =>
    intro l' b h
    cases l' with
    | nil => simp at h
    | cons c' cs' =>
      simp only [List.map_cons, List.cons.injEq] at h
      obtain ⟨h1, h2⟩ := h
      obtain ⟨ha, hu⟩ := toLower_congr_alpha_upper h1
      simp only [titleCaseChars]
      by_cases hal : c.isAlpha = true
      · have hal' : c'.isAlpha = true := ha.symm.trans hal
        rw [if_pos hal, if_pos hal', ih cs' false h2]
        have hhead : (if b = true then c.toUpper else c.toLower)
            = (if b = true then c'.toUpper else c'.toLower) := by
          cases b
          · simpa using h1
          · simpa using hu
        rw [hhead]
      · have hal' : ¬(c'.isAlpha = true) := fun hx => hal (ha.trans hx)
        have hnc : ¬(65 ≤ c.toNat ∧ c.toNat ≤ 90) := fun hx =>
          hal ((isAlpha_iff c).mpr (Or.inl hx))
        have hnc' : ¬(65 ≤ c'.toNat ∧ c'.toNat ≤ 90) := fun hx =>
          hal' ((isAlpha_iff c').mpr (Or.inl hx))
        rw [toLower_of_not_upperRange hnc, toLower_of_not_upperRange hnc'] at h1
        rw [if_neg hal, if_neg hal', h1, ih cs' true h2]

/-- Re-casing the input does not change its title-cased form. -/
theorem titleCase_congr {s t : String} (h : lowerStr s = lowerStr t) :
    titleCase s = titleCase t := by
  unfold lowerStr at h
  injection h with h
  unfold titleCase
  rw [titleCaseChars_congr _ _ _ h]

/-- C9 counterexample: the loader title-cases every `Day of Week` cell, so a
value outside {Monday, ..., Sunday} does NOT pass through unchanged —
`"week end"` becomes `"Week End"`. -/
theorem dayOfWeek_counterexample :
    (loadFactRow badRawFact).dayOfWeek ≠ badRawFact.dayOfWeek ∧
    badRawFact.dayOfWeek ∉ dow_order ∧
    (loadFactRow badRawFact).dayOfWeek = "Week End" :=
  ⟨by decide, by decide, by decide⟩

/-- C9 (amended): after loading, `dayOfWeek` is the `str.title()` form of the
source cell; a source value naming a weekday in any letter casing becomes the
canonical member of {Monday, ..., Sunday}, and values outside this set are
also title-cased rather than passed through unchanged. -/
theorem dayOfWeek_title_normalization (r : RawFactRow) :
    (loadFactRow r).dayOfWeek = titleCase r.dayOfWeek ∧
    (∀ w ∈ dow_order, lowerStr r.dayOfWeek = lowerStr w →
      (loadFactRow r).dayOfWeek = w) := by
  refine ⟨rfl, fun w hw h => ?_⟩
  have h1 : titleCase r.dayOfWeek = titleCase w := titleCase_congr h
  have h2 : titleCase w = w := by fin_cases hw <;> decide
  show titleCase r.dayOfWeek = w
  rw [h1, h2]

/-- Witness for C9: the all-caps cell `"MONDAY"` loads as `"Monday"`. -/
theorem dayOfWeek_title_normalization_witness :
    ("Monday" ∈ dow_order ∧ lowerStr rawMondayFact.dayOfWeek = lowerStr "Monday") ∧
    (loadFactRow rawMondayFact).dayOfWeek = "Monday" :=
  ⟨⟨by decide, by decide⟩,
    (dayOfWeek_title_normalization rawMondayFact).2 "Monday" (by decide) (by decide)⟩

/-! ### The state/territory join: first-match semantics and row preservation -/

/-- `find?` looks at rows in order, so dropping later duplicate keys does not
change the first match, provided the key was not among the already-seen
ones. -/
theorem find?_dropDupByKey (k : String) :
    ∀ (l : List (String × String)) (seen : List String), seen.contains k = false →
      (dropDupByKey seen l).find? (fun p => p.1 == k) = l.find? (fun p => p.1 == k) := by
  intro l
  induction l with
  | nil => intro seen _; rfl
  | cons p ps ih =>
    intro seen hs
    by_cases hc : seen.contains p.1
    · rw [dropDupByKey, if_pos hc]
      have hpk : (p.1 == k) = false := by
        by_cases h : p.1 = k
        · exfalso; rw [h] at hc; rw [hc] at hs; exact Bool.noConfusion hs
        · simp [h]
      rw [List.find?_cons, hpk, ih seen hs]
    · rw [dropDupByKey, if_neg hc]
      rw [List.find?_cons, List.find?_cons]
      cases hpk : (p.1 == k)
      · have hs' : (p.1 :: seen).contains k = false := by
          simp only [List.contains_cons, Bool.or_eq_false_iff]
          constructor
          · rw [beq_eq_false_iff_ne] at hpk ⊢
            exact fun h => hpk h.symm
          · exact hs
        exact ih (p.1 :: seen) hs'
      · rfl

/-- After `drop_duplicates` the kept rows avoid the already-seen keys and
their own keys are pairwise distinct. -/
theorem dropDupByKey_keys :
    ∀ (l : List (String × String)) (seen : List String),
      (∀ q ∈ dropDupByKey seen l, seen.contains q.1 = false) ∧
      ((dropDupByKey seen l).map Prod.fst).Nodup := by
  intro l
  induction l with
  | nil => intro seen; exact ⟨by simp [dropDupByKey], by simp [dropDupByKey]⟩
  | cons p ps ih =>
    intro seen
    by_cases hc : seen.contains p.1
    · rw [dropDupByKey, if_pos hc]
      exact ih seen
    · rw [dropDupByKey, if_neg hc]
      obtain ⟨ihm, ihn⟩ := ih (p.1 :: seen)
      constructor
      · intro q hq
        rcases List.mem_cons.mp hq with rfl | hq
        · exact Bool.of_not_eq_true hc
        · have := ihm q hq
          simp only [List.contains_cons, Bool.or_eq_false_iff] at this
          exact this.2
      · rw [List.map_cons, List.nodup_cons]
        refine ⟨?_, ihn⟩
        intro hmem
        rcases List.mem_map.mp hmem with ⟨q, hq, hq1⟩
        have := ihm q hq
        simp only [List.contains_cons, Bool.or_eq_false_iff] at this
        have h1 := this.1
        rw [hq1] at h1
        simp at h1

/-- On a table with duplicate-free keys, the matching rows for a key are
exactly the first match (at most one row). -/
theorem filter_eq_find?_toList :
    ∀ (m : List (String × String)), (m.map Prod.fst).Nodup → ∀ k : String,
      m.filter (fun p => p.1 == k) = (m.find? (fun p => p.1 == k)).toList := by
  intro m
  induction m with
  | nil => intro _ k; rfl
  | cons p ps ih =>
    intro hnd k
    rw [List.map_cons, List.nodup_cons] at hnd
    obtain ⟨hp, hnd'⟩ := hnd
    rw [List.filter_cons, List.find?_cons]
    cases hpk : (p.1 == k)
    · exact ih hnd' k
    · simp only [Option.toList_some]
      have hk : p.1 = k := by rwa [beq_iff_eq] at hpk
      have hnone : ps.filter (fun q => q.1 == k) = [] := by
        rw [List.filter_eq_nil_iff]
        intro q hq
        intro hqk
        rw [beq_iff_eq] at hqk
        exact hp (List.mem_map.mpr ⟨q, hq, hqk.trans hk.symm⟩)
      rw [hnone]
      simp

/-- With duplicate-free keys on the right, the left merge emits exactly one
output row per fact row, carrying the first match if any. -/
theorem leftMerge_eq_map (facts : List FactRow) (m : List (String × String))
    (hm : (m.map Prod.fst).Nodup) :
    leftMerge facts m
      = facts.map fun f => (f, (m.find? fun p => p.1 == f.site).map Prod.snd) := by
  unfold leftMerge
  induction facts with
  | nil => rfl
  | cons f fs ih =>
    simp only [List.flatMap_cons, List.map_cons]
    rw [ih, filter_eq_find?_toList m hm f.site]
    cases h : m.find? fun p => p.1 == f.site <;> simp [h]

/-- The joined table is the row-wise first-match description of §3. -/
theorem joinState_eq_firstMatch (agg : List AggRow) (facts : List FactRow) :
    joinState agg facts
      = facts.map fun f => { fact := f, stateTerritory := firstMatchState agg f.site } := by
  unfold joinState
  have hnd : ((mapper agg).map Prod.fst).Nodup := (dropDupByKey_keys _ []).2
  rw [leftMerge_eq_map facts (mapper agg) hnd, List.map_map]
  apply List.map_congr_left
  intro f _
  simp only [Function.comp]
  congr 1
  rw [mapper, find?_dropDupByKey f.site _ [] rfl, List.find?_map]
  have hpred : List.find?
        ((fun p => p.1 == f.site) ∘ fun a : AggRow => (a.siteContractId, a.stateTerritory)) agg
      = agg.find? fun a => a.siteContractId == f.site := rfl
  rw [hpred]
  cases h : agg.find? fun a => a.siteContractId == f.site <;>
    simp [firstMatchState, Function.comp, h]

/-- C6: every fact row's derived `State/Federal Territory` is that of the
first aggregated row whose `Site Contract ID` equals the row's `Site` (first
occurrence wins), and is `"Unknown"` exactly when no aggregated row
matches. -/
theorem stateTerritory_first_match (agg : List AggRow) (facts : List FactRow) :
    joinState agg facts
      = facts.map (fun f => { fact := f, stateTerritory := firstMatchState agg f.site }) ∧
    (∀ site : String, (∀ a ∈ agg, ¬(a.siteContractId = site)) →
      firstMatchState agg site = "Unknown") := by
  refine ⟨joinState_eq_firstMatch agg facts, fun site h => ?_⟩
  unfold firstMatchState
  have hnone : agg.find? (fun a => a.siteContractId == site) = none :=
    List.find?_eq_none.mpr fun a ha => by simp [h a ha]
  rw [hnone]

/-- Witness for C6: in `sampleFacts`, site `"S9"` matches no aggregated row
and resolves to `"Unknown"`, and the join equals the first-match map. -/
theorem stateTerritory_first_match_witness :
    (∀ a ∈ sampleAgg, ¬(a.siteContractId = "S9")) ∧
    firstMatchState sampleAgg "S9" = "Unknown" ∧
    joinState sampleAgg sampleFacts
      = sampleFacts.map
          (fun f => { fact := f, stateTerritory := firstMatchState sampleAgg f.site }) :=
  ⟨by decide, (stateTerritory_first_match sampleAgg sampleFacts).2 "S9" (by decide),
    (stateTerritory_first_match sampleAgg sampleFacts).1⟩

/-- C10: the lookup table built by `drop_duplicates` has pairwise-distinct
`Site Contract ID` keys, so the left merge neither multiplies nor drops fact
rows: the joined table has the same length and the same fact rows in the
same order, each with exactly one `State/Federal Territory` value. -/
theorem join_row_count_preserved (agg : List AggRow) (facts : List FactRow) :
    ((mapper agg).map Prod.fst).Nodup ∧
    (joinState agg facts).length = facts.length ∧
    (joinState agg facts).map (fun j => j.fact) = facts := by
  refine ⟨(dropDupByKey_keys _ []).2, ?_, ?_⟩
  · rw [joinState_eq_firstMatch, List.length_map]
  · rw [joinState_eq_firstMatch, List.map_map]
    have hid : ((fun j : JFactRow => j.fact) ∘ fun f =>
        ({ fact := f, stateTerritory := firstMatchState agg f.site } : JFactRow)) = id := rfl
    rw [hid, List.map_id]

/-- C7: a fact row with an unparseable `Date` loads with a null date; an
active date-range filter excludes every null-date row while keeping a
non-null-date row exactly when its date lies in the inclusive range; and
with no filter active the total-weight metric still counts every row. -/
theorem null_date_row_handling (r : RawFactRow) (hr : r.rawDate = none)
    (c : TsCriteria) (s e : Int) (hc : c.dateRange = some (s, e))
    (rows : List JFactRow) :
    (loadFactRow r).dateDt = none ∧
    (∀ x ∈ applyTsFilters c rows, x.fact.dateDt ≠ none) ∧
    (∀ x ∈ rows, ∀ d : Int, x.fact.dateDt = some d →
      (x ∈ applyTsFilters { TsCriteria.inactive with dateRange := some (s, e) } rows ↔
        s ≤ d ∧ d ≤ e)) ∧
    total_w (applyTsFilters TsCriteria.inactive rows) = total_w rows := by
  refine ⟨by simp [loadFactRow, hr], ?_, ?_, rfl⟩
  · intro x hx
    unfold applyTsFilters at hx
    rw [hc] at hx
    simp only [dateStage] at hx
    rcases List.mem_filter.mp hx with ⟨_, hpred⟩
    intro hnone
    rw [hnone] at hpred
    simp [dateInRange] at hpred
  · intro x hx d hd
    have heq : applyTsFilters { TsCriteria.inactive with dateRange := some (s, e) } rows
        = rows.filter fun q => dateInRange s e q.fact.dateDt := rfl
    rw [heq, List.mem_filter]
    simp [dateInRange, hd, hx]

/-- Witness for C7: the unparseable-date row `badRawFact` loads with a null
date, and with no criteria active the sample table's total weight is
unchanged. -/
theorem null_date_row_handling_witness :
    (badRawFact.rawDate = none ∧ witnessCrit.dateRange = some (0, 10)) ∧
    ((loadFactRow badRawFact).dateDt = none ∧
      total_w (applyTsFilters TsCriteria.inactive sampleTs) = total_w sampleTs) :=
  ⟨⟨rfl, rfl⟩,
    ⟨(null_date_row_handling badRawFact rfl witnessCrit 0 10 rfl sampleTs).1,
      (null_date_row_handling badRawFact rfl witnessCrit 0 10 rfl sampleTs).2.2.2⟩⟩
